import Mathlib

/-!
Verification of the gitleaks-ls scan orchestration, caching and
coordinate-normalization core. The Go sources are shallowly embedded:
Go strings that carry text (paths, rule ids, messages) become `String`,
Go byte-level content (`[]byte`, scanned document text measured with
`len`) becomes `List Nat` of byte values, Go `int` becomes `Int`,
Go `uint32` conversions truncate with an explicit `% 2 ^ 32`, and the
external collaborators (the gitleaks detector, the magic-byte sniffer,
the compiled gitignore matcher) are passed in as function parameters,
exactly at the interfaces the Go code consumes them.
-/

namespace GitleaksLS

/-! ## SHA-256 over byte lists

The Go code uses `crypto/sha256` twice: for the result-cache key
(`cache.go`) and for the finding fingerprint (`scanner.go`,
`calculateFingerprint`). This is a concrete executable model of
SHA-256 over lists of byte values, with 32-bit words represented as
`Nat` reduced by `% 2 ^ 32`. -/

/-- Reduce to a 32-bit word. -/
def w32 (n : Nat) : Nat := n % 4294967296

/-- Rotate a 32-bit word right by `n` bits; for a 32-bit `x` the two
summands occupy disjoint bit ranges after the reduction. -/
def rotr32 (x n : Nat) : Nat := w32 ((x >>> n) + (x <<< (32 - n)))

/-- Bitwise complement of a 32-bit word. -/
def not32 (x : Nat) : Nat := x ^^^ 4294967295

/-- SHA-256 small sigma 0. -/
def ssig0 (x : Nat) : Nat := (rotr32 x 7) ^^^ (rotr32 x 18) ^^^ (x >>> 3)

/-- SHA-256 small sigma 1. -/
def ssig1 (x : Nat) : Nat := (rotr32 x 17) ^^^ (rotr32 x 19) ^^^ (x >>> 10)

/-- SHA-256 big sigma 0. -/
def bsig0 (x : Nat) : Nat := (rotr32 x 2) ^^^ (rotr32 x 13) ^^^ (rotr32 x 22)

/-- SHA-256 big sigma 1. -/
def bsig1 (x : Nat) : Nat := (rotr32 x 6) ^^^ (rotr32 x 11) ^^^ (rotr32 x 25)

/-- The 64 SHA-256 round constants, written in decimal. -/
def shaK : List Nat :=
  [1116352408, 1899447441, 3049323471, 3921009573, 961987163,
   1508970993, 2453635748, 2870763221, 3624381080, 310598401,
   607225278, 1426881987, 1925078388, 2162078206, 2614888103,
   3248222580, 3835390401, 4022224774, 264347078, 604807628,
   770255983, 1249150122, 1555081692, 1996064986, 2554220882,
   2821834349, 2952996808, 3210313671, 3336571891, 3584528711,
   113926993, 338241895, 666307205, 773529912, 1294757372,
   1396182291, 1695183700, 1986661051, 2177026350, 2456956037,
   2730485921, 2820302411, 3259730800, 3345764771, 3516065817,
   3600352804, 4094571909, 275423344, 430227734, 506948616,
   659060556, 883997877, 958139571, 1322822218, 1537002063,
   1747873779, 1955562222, 2024104815, 2227730452, 2361852424,
   2428436474, 2756734187, 3204031479, 3329325298]

/-- The initial SHA-256 state, written in decimal. -/
def shaH0 : List Nat :=
  [1779033703, 3144134277, 1013904242, 2773480762, 1359893119,
   2600822924, 528734635, 1541459225]

/-- Group bytes into 32-bit words, big endian, four bytes per word. -/
def wordsBE : List Nat → List Nat
  | hi :: m1 :: m2 :: lo :: rest =>
      ((((hi <<< 8) ||| m1) <<< 8 ||| m2) <<< 8 ||| lo) :: wordsBE rest
  | _ => []

/-- A 64-bit value as eight big-endian bytes. -/
def be64 (n : Nat) : List Nat :=
  [56, 48, 40, 32, 24, 16, 8, 0].map fun sh => (n >>> sh) % 256

/-- SHA-256 padding: append 0x80, zero bytes up to 56 mod 64, then the
bit length as eight big-endian bytes. -/
def shaPad (msg : List Nat) : List Nat :=
  let len := msg.length
  let zeros := (64 + 56 - (len + 1) % 64) % 64
  msg ++ [128] ++ List.replicate zeros 0 ++ be64 (8 * len)

/-- Extend the message schedule; the accumulator holds the schedule in
reverse (most recent word first). -/
def shaExtend : Nat → List Nat → List Nat
  | 0, rws => rws
  | n + 1, rws =>
      let w := w32 (ssig1 (rws.getD 1 0) + rws.getD 6 0 +
        ssig0 (rws.getD 14 0) + rws.getD 15 0)
      shaExtend n (w :: rws)

/-- One SHA-256 compression round on the eight-word working state. -/
def shaRound (k w : Nat) (st : List Nat) : List Nat :=
  match st with
  | [a, b, c, d, e, f, g, h] =>
      let ch := (e &&& f) ^^^ (not32 e &&& g)
      let maj := (a &&& b) ^^^ (a &&& c) ^^^ (b &&& c)
      let t1 := w32 (h + bsig1 e + ch + k + w)
      let t2 := w32 (bsig0 a + maj)
      [w32 (t1 + t2), a, b, c, w32 (d + t1), e, f, g]
  | st => st

/-- Run the 64 compression rounds over the paired constants and schedule. -/
def shaRounds : List (Nat × Nat) → List Nat → List Nat
  | [], st => st
  | (k, w) :: rest, st => shaRounds rest (shaRound k w st)

/-- Process one 64-byte block into the running hash state. -/
def shaBlock (h : List Nat) (block : List Nat) : List Nat :=
  let ws16 := wordsBE block
  let ws := (shaExtend 48 ws16.reverse).reverse
  let st := shaRounds (shaK.zip ws) h
  (h.zip st).map fun p => w32 (p.1 + p.2)

/-- Process 64-byte blocks; the fuel argument bounds the recursion and is
instantiated with the padded length, which always suffices. -/
def shaBlocks : Nat → List Nat → List Nat → List Nat
  | 0, h, _ => h
  | _, h, [] => h
  | fuel + 1, h, bytes => shaBlocks fuel (shaBlock h (bytes.take 64)) (bytes.drop 64)

/-- SHA-256 of a byte list, as the 32 digest bytes. -/
def sha256 (msg : List Nat) : List Nat :=
  let padded := shaPad msg
  let h := shaBlocks padded.length shaH0 padded
  h.flatMap fun word =>
    [(word >>> 24) % 256, (word >>> 16) % 256, (word >>> 8) % 256, word % 256]

/-- Hexadecimal digit for a value below 16, lowercase as Go `%x`. -/
def hexDigit (n : Nat) : Char :=
  if n = 0 then '0' else if n = 1 then '1' else if n = 2 then '2'
  else if n = 3 then '3' else if n = 4 then '4' else if n = 5 then '5'
  else if n = 6 then '6' else if n = 7 then '7' else if n = 8 then '8'
  else if n = 9 then '9' else if n = 10 then 'a' else if n = 11 then 'b'
  else if n = 12 then 'c' else if n = 13 then 'd' else if n = 14 then 'e'
  else 'f'

/-- Go `fmt.Sprintf "%x"` on a byte slice: two lowercase hex digits per byte. -/
def hexBytes (bs : List Nat) : String :=
  String.mk (bs.flatMap fun b => [hexDigit (b / 16), hexDigit (b % 16)])

/-- UTF-8 bytes of one code point. -/
def utf8Bytes (c : Nat) : List Nat :=
  if c < 0x80 then [c]
  else if c < 0x800 then
    [0xc0 ||| (c >>> 6), 0x80 ||| (c &&& 0x3f)]
  else if c < 0x10000 then
    [0xe0 ||| (c >>> 12), 0x80 ||| ((c >>> 6) &&& 0x3f), 0x80 ||| (c &&& 0x3f)]
  else
    [0xf0 ||| (c >>> 18), 0x80 ||| ((c >>> 12) &&& 0x3f),
     0x80 ||| ((c >>> 6) &&& 0x3f), 0x80 ||| (c &&& 0x3f)]

/-- The bytes of a Go string: UTF-8 encoding of its characters. -/
def strBytes (s : String) : List Nat :=
  (s.toList.map fun c => utf8Bytes c.toNat).flatten

/-! ## Data model

Embeds `Finding` and the raw detector finding (`report.Finding` from the
gitleaks library, of which the code reads exactly the fields below). The
float32 entropy score is modelled as a rational. -/

/-- Raw detector finding (gitleaks `report.Finding`), with the fields the
code reads. The Go field `Match` is `matchText` here. -/
structure ReportFinding where
  ruleID : String
  description : String
  matchText : String
  secret : String
  startLine : Int
  endLine : Int
  startColumn : Int
  endColumn : Int
  line : String
  entropy : Rat
  file : String
deriving DecidableEq

/-- A detected secret with location information (`scanner.go` `Finding`). -/
structure Finding where
  ruleID : String
  description : String
  matchText : String
  secret : String
  startLine : Int
  endLine : Int
  startColumn : Int
  endColumn : Int
  line : String
  entropy : Rat
  file : String
  fingerprint : String
deriving DecidableEq

/-- Go conversion of a signed integer to `uint32`: truncation modulo 2 ^ 32. -/
def intToU32 (i : Int) : Nat := (i % 4294967296).toNat

/-- The data string hashed by `calculateFingerprint`:
`fmt.Sprintf("%s:%d:%s", gf.File, gf.StartLine, gf.RuleID)`. -/
def fingerprintData (gf : ReportFinding) : String :=
  gf.file ++ ":" ++ toString gf.startLine ++ ":" ++ gf.ruleID

/-- `calculateFingerprint` (scanner.go): SHA-256 of the data string,
first 8 bytes rendered as lowercase hex. -/
def calculateFingerprint (gf : ReportFinding) : String :=
  hexBytes ((sha256 (strBytes (fingerprintData gf))).take 8)

/-- The ignore-list key checked in `ScanContent`:
`fmt.Sprintf("%s:%s:%d", gf.File, gf.RuleID, gf.StartLine)`. -/
def globalFingerprint (gf : ReportFinding) : String :=
  gf.file ++ ":" ++ gf.ruleID ++ ":" ++ toString gf.startLine

/-- The same ignore-list key computed from a converted `Finding`. -/
def findingIgnoreKey (f : Finding) : String :=
  f.file ++ ":" ++ f.ruleID ++ ":" ++ toString f.startLine

/-- `convertGitleaksFinding` (scanner.go): field-for-field copy plus the
computed fingerprint. -/
def convertGitleaksFinding (gf : ReportFinding) : Finding :=
  { ruleID := gf.ruleID
    description := gf.description
    matchText := gf.matchText
    secret := gf.secret
    startLine := gf.startLine
    endLine := gf.endLine
    startColumn := gf.startColumn
    endColumn := gf.endColumn
    line := gf.line
    entropy := gf.entropy
    file := gf.file
    fingerprint := calculateFingerprint gf }

/-! ## Scanner -/

/-- The scanner state (`Scanner` in scanner.go): the active ignore set and
the wrapped gitleaks detector, the latter modelled as a function from the
fragment (file path and raw content bytes) to raw findings. -/
structure ScannerM where
  ignoreSet : List String
  detect : String → List Nat → List ReportFinding

/-- The 1 MB single-document size limit in `ScanContent`. -/
def maxScanSize : Nat := 1000000

/-- `Scanner.ScanContent` (scanner.go): oversized content returns nil
findings and a nil error; otherwise the detector runs on the fragment and
findings whose global fingerprint is in the ignore set are dropped before
conversion. The second component is the Go error, `none` on every path of
the source. -/
def ScanContent (s : ScannerM) (filename : String) (content : List Nat) :
    List Finding × Option String :=
  if content.length > maxScanSize then ([], none)
  else
    let gfs := s.detect filename content
    ((gfs.filter fun gf => !(s.ignoreSet.contains (globalFingerprint gf))).map
      convertGitleaksFinding, none)

/-! ## Result cache

`cache.go`: a map from the SHA-256 of the exact content bytes to finding
lists, modelled as an association list where `Put` replaces any entry
with the same key. -/

/-- The cache contents: entries keyed by 32-byte content hash. -/
abbrev ResultCache := List (List Nat × List Finding)

/-- `NewCache`: the empty cache. -/
def cacheEmpty : ResultCache := []

/-- `Cache.Get`: hash the content, look the key up. -/
def cacheGet (c : ResultCache) (content : List Nat) : Option (List Finding) :=
  (c.find? fun e => e.1 == sha256 content).map (·.2)

/-- `Cache.Put`: hash the content and overwrite the entry for that key. -/
def cachePut (c : ResultCache) (content : List Nat) (fs : List Finding) :
    ResultCache :=
  let h := sha256 content
  (h, fs) :: c.filter fun e => !(e.1 == h)

/-- `Cache.Clear`: empty the map. -/
def cacheClear : ResultCache := []

/-- `Cache.Size`: number of entries. -/
def cacheSize (c : ResultCache) : Nat := c.length

/-! ## Protocol types and diagnostics conversion -/

/-- LSP position (`protocol.Position`): zero-indexed line and character. -/
structure Position where
  line : Nat
  character : Nat
deriving DecidableEq

/-- LSP range; the Go field `End` is `stop` here. -/
structure Range where
  start : Position
  stop : Position
deriving DecidableEq

/-- LSP diagnostic, with the fields the code sets and reads. -/
structure Diagnostic where
  range : Range
  severity : Nat
  source : String
  message : String
  code : String
deriving DecidableEq

/-- `adjustColumn` (diagnostics.go): converts a gitleaks column to an LSP
character. Non-positive raw columns clamp to 0; on line 0 a start column
is shifted by one and an end column kept; on other lines both shift by one
more; the result passes through the Go `uint32` conversion. -/
def adjustColumn (col : Int) (lineNum : Int) (isEndColumn : Bool) : Nat :=
  if col ≤ 0 then 0
  else if lineNum = 0 then
    if isEndColumn then intToU32 col
    else intToU32 (max 0 (col - 1))
  else
    if isEndColumn then intToU32 (max 0 (col - 1))
    else intToU32 (max 0 (col - 2))

/-- `formatDiagnosticMessage` (diagnostics.go). The Go `%.1f` float
rendering of the entropy is abstracted by the rational `toString`. -/
def formatDiagnosticMessage (f : Finding) : String :=
  f.ruleID ++ ": " ++ f.description ++
    (if 0 < f.entropy then " (entropy: " ++ toString f.entropy ++ ")" else "")

/-- `FindingToDiagnostic` (diagnostics.go); the configured severity is a
parameter standing for `GetDiagnosticSeverity()`. -/
def FindingToDiagnostic (severity : Nat) (f : Finding) : Diagnostic :=
  { range :=
      { start :=
          { line := intToU32 f.startLine
            character := adjustColumn f.startColumn f.startLine false }
        stop :=
          { line := intToU32 f.endLine
            character := adjustColumn f.endColumn f.startLine true } }
    severity := severity
    source := "gitleaks"
    message := formatDiagnosticMessage f
    code := f.ruleID }

/-- `FindingsToDiagnostics` (diagnostics.go). -/
def FindingsToDiagnostics (severity : Nat) (fs : List Finding) :
    List Diagnostic :=
  fs.map (FindingToDiagnostic severity)

/-! ## Server state, document store, scan-and-publish, reload -/

/-- An open document (`Document` in server.go). -/
structure Document where
  uri : String
  version : Int
  content : List Nat
  diagnostics : List Diagnostic
  findings : List Finding
deriving DecidableEq

/-- Server state (`Server` in server.go); `severity` stands for the
global diagnostic-severity setting. -/
structure ServerM where
  scanner : ScannerM
  documents : List (String × Document)
  cache : ResultCache
  severity : Nat

/-- `DocumentStore.Get`. -/
def docGet (docs : List (String × Document)) (uri : String) :
    Option Document :=
  (docs.find? fun e => e.1 == uri).map (·.2)

/-- Replace the stored document for a URI. -/
def docReplace (docs : List (String × Document)) (uri : String)
    (d : Document) : List (String × Document) :=
  (uri, d) :: docs.filter fun e => !(e.1 == uri)

/-- The write-back step of `scanAndPublish`: store diagnostics and
findings on the open document, when the URI is known. -/
def publishTo (srv : ServerM) (uri : String) (fs : List Finding) : ServerM :=
  match docGet srv.documents uri with
  | none => srv
  | some doc =>
      { srv with
          documents := docReplace srv.documents uri
            { doc with
                diagnostics := FindingsToDiagnostics srv.severity fs
                findings := fs } }

/-- `scanAndPublish` (server.go): serve from the cache on a hit; on a miss
run `ScanContent`, return early on a scan error without caching, otherwise
store the returned findings in the cache. Returns the new server state,
the findings published, and the error. -/
def scanAndPublish (srv : ServerM) (uri : String) (content : List Nat) :
    ServerM × List Finding × Option String :=
  match cacheGet srv.cache content with
  | some cached => (publishTo srv uri cached, cached, none)
  | none =>
      match ScanContent srv.scanner uri content with
      | (_, some e) => (srv, [], some e)
      | (fs, none) =>
          let srv1 := { srv with cache := cachePut srv.cache content fs }
          (publishTo srv1 uri fs, fs, none)

/-- The reload trigger shared by the config-reload callback in
`SetupServer` and the `.gitleaksignore` watcher (`watchIgnoreFile`):
swap in the freshly constructed scanner and clear the result cache. The
new scanner built by `NewScannerWithIgnore` from the reloaded config and
ignore file is the argument. -/
def reloadTrigger (srv : ServerM) (newScanner : ScannerM) : ServerM :=
  { srv with scanner := newScanner, cache := cacheClear }

/-! ## Workspace scanning (workspace.go)

The concurrent parts are embedded at the granularity the claims speak
about: the sequential dispatch loop of `ScanWorkspace` (which checks the
cancellation signal before starting each target), and the body of one
scan goroutine (which turns a per-file result into a scanned or skipped
count). The cancellation context is a predicate on the loop index saying
whether `ctx.Done()` is observable at that iteration, and the magic-byte
sniffer of the external filetype library is a function parameter. -/

/-- `isBinaryContent` (workspace.go): the sniffer sees at most the first
262 bytes of the content. -/
def isBinaryContent (sniff : List Nat → Bool) (content : List Nat) : Bool :=
  sniff (content.take 262)

/-- `Server.scanFile` (workspace.go): a read error propagates, binary
content short-circuits with no findings and no error, otherwise the
content is scanned. The read result of `os.ReadFile` is a parameter. -/
def scanFile (sniff : List Nat → Bool) (s : ScannerM) (path : String)
    (readResult : Except String (List Nat)) : List Finding × Option String :=
  match readResult with
  | .error e => ([], some e)
  | .ok content =>
      if isBinaryContent sniff content then ([], none)
      else ScanContent s path content

/-- How one dispatched target is counted by the `ScanWorkspace` goroutine
body: an error increments the skipped counter, otherwise the scanned
counter, and the findings (possibly empty) are recorded. -/
inductive TargetOutcome where
  | scannedTarget : List Finding → TargetOutcome
  | skippedTarget : TargetOutcome
deriving DecidableEq

/-- The goroutine body of `ScanWorkspace`: classify the `scanFile` result
into the counter it bumps. -/
def scanTargetOutcome (sniff : List Nat → Bool) (s : ScannerM) (path : String)
    (readResult : Except String (List Nat)) : TargetOutcome :=
  match scanFile sniff s path readResult with
  | (_, some _) => TargetOutcome.skippedTarget
  | (fs, none) => TargetOutcome.scannedTarget fs

/-- The dispatch loop of `ScanWorkspace` from loop index `i`: before each
target the cancellation signal is polled; when it is set the loop stops
and reports cancellation, otherwise the target is dispatched and the loop
continues. Returns the dispatched targets in order and whether the loop
ended by cancellation. -/
def dispatchFrom (done : Nat → Bool) (i : Nat) :
    List String → List String × Bool
  | [] => ([], false)
  | f :: fs =>
      if done i then ([], true)
      else
        let r := dispatchFrom done (i + 1) fs
        (f :: r.1, r.2)

/-- The `ScanWorkspace` dispatch loop over the collected files. -/
def scanWorkspaceDispatch (done : Nat → Bool) (files : List String) :
    List String × Bool :=
  dispatchFrom done 0 files

/-! ## File collection (collectFiles in workspace.go) -/

mutual
/-- One entry of the file-system snapshot walked by `collectFiles`: a
file with its byte size, or a directory with children. -/
inductive FSEntry where
  | file : String → Nat → FSEntry
  | dir : String → FSEntries → FSEntry

/-- Directory children, listed in the lexical order `WalkDir` visits. -/
inductive FSEntries where
  | nil : FSEntries
  | cons : FSEntry → FSEntries → FSEntries
end

/-- Build directory children from a list. -/
def FSEntries.ofList : List FSEntry → FSEntries
  | [] => FSEntries.nil
  | e :: es => FSEntries.cons e (FSEntries.ofList es)

/-- Go `strings.HasPrefix(name, ".")`. -/
def startsWithDot (name : String) : Bool :=
  match name.toList with
  | '.' :: _ => true
  | _ => false

/-- The suffix after the last dot of a name, when a dot occurs. -/
def lastDotSuffix : List Char → Option (List Char)
  | [] => none
  | c :: rest =>
      match lastDotSuffix rest with
      | some s => some s
      | none => if c = '.' then some rest else none

/-- Go `filepath.Ext`: the suffix starting at the final dot, empty when
the name has no dot. -/
def fileExt (name : String) : String :=
  match lastDotSuffix name.toList with
  | some s => String.mk ('.' :: s)
  | none => ""

/-- Go `strings.ToLower`, characterwise. -/
def strToLower (s : String) : String :=
  String.mk (s.toList.map Char.toLower)

/-- The `binaryExts` deny set (workspace.go). -/
def binaryExts : List String :=
  [".exe", ".dll", ".so", ".dylib",
   ".png", ".jpg", ".jpeg", ".gif", ".ico", ".webp",
   ".pdf", ".doc", ".docx", ".xls", ".xlsx",
   ".zip", ".tar", ".gz", ".rar", ".7z",
   ".bin", ".dat", ".db", ".sqlite",
   ".pyc", ".pyo", ".class",
   ".woff", ".woff2", ".ttf", ".eot",
   ".mp3", ".mp4", ".wav", ".avi", ".mov",
   ".o", ".a", ".lib"]

/-- `isBinaryExtension` (workspace.go). -/
def isBinaryExtension (name : String) : Bool :=
  binaryExts.contains (strToLower (fileExt name))

/-- The fixed set of dependency and build directory names pruned by
`collectFiles`. -/
def skipDirs : List String :=
  ["node_modules", "vendor", "__pycache__", "target", "build", "dist"]

/-- Extend a root-relative path by one segment. -/
def relJoin (rel name : String) : String :=
  if rel = "" then name else rel ++ "/" ++ name

/-- The gitignore check of `collectFiles`: when a compiled matcher is
present it is asked about the root-relative path, otherwise no path
matches. The matcher function stands for the compiled external
go-gitignore object. -/
def gitignoreMatches (g : Option (String → Bool)) (relPath : String) : Bool :=
  match g with
  | some gi => gi relPath
  | none => false

mutual
/-- The per-entry body of the `collectFiles` walk, at the root-relative
path `rel`. Directories: a hidden name, a deny-listed name, or a
gitignore match prunes the subtree. Files: a hidden name, a binary
extension, a gitignore match, or a size over 1,000,000 bytes skips the
file; survivors are collected. -/
def walkEntry (g : Option (String → Bool)) (rel : String) :
    FSEntry → List String
  | FSEntry.file name size =>
      if startsWithDot name then []
      else if isBinaryExtension name then []
      else if gitignoreMatches g (relJoin rel name) then []
      else if size > 1000000 then []
      else [relJoin rel name]
  | FSEntry.dir name entries =>
      if startsWithDot name then []
      else if skipDirs.contains name then []
      else if gitignoreMatches g (relJoin rel name) then []
      else walkEntries g (relJoin rel name) entries

/-- Walk a list of sibling entries in order. -/
def walkEntries (g : Option (String → Bool)) (rel : String) :
    FSEntries → List String
  | FSEntries.nil => []
  | FSEntries.cons e es => walkEntry g rel e ++ walkEntries g rel es
end

/-- `collectFiles` (workspace.go) on a file-system snapshot of the root:
walk the children of the root and return the collected paths, relative to
the root, in traversal order. -/
def collectFiles (g : Option (String → Bool)) (root : FSEntries) :
    List String :=
  walkEntries g "" root

/-! ## Hover (hover.go) -/

/-- LSP hover result: markup kind and markdown value. -/
structure Hover where
  kind : String
  value : String
deriving DecidableEq

/-- `positionInRange` (hover.go), the exact comparison sequence. -/
def positionInRange (pos : Position) (rng : Range) : Bool :=
  if pos.line < rng.start.line then false
  else if pos.line == rng.start.line && pos.character < rng.start.character
    then false
  else if pos.line > rng.stop.line then false
  else if pos.line == rng.stop.line && pos.character > rng.stop.character
    then false
  else true

/-- A placeholder finding for the indexed list access below; it is only
read under a bounds check, exactly as in the Go loop. -/
def defaultFinding : Finding :=
  { ruleID := "", description := "", matchText := "", secret := ""
    startLine := 0, endLine := 0, startColumn := 0, endColumn := 0
    line := "", entropy := 0, file := "", fingerprint := "" }

/-- The diagnostic loop of `textDocumentHover`: the first diagnostic
whose range contains the position, and whose index is inside the findings
list, selects the finding at the same index; otherwise scanning
continues. -/
def hoverLoop (findings : List Finding) (pos : Position) :
    Nat → List Diagnostic → Option Finding
  | _, [] => none
  | i, d :: rest =>
      if positionInRange pos d.range && decide (i < findings.length) then
        some (findings.getD i defaultFinding)
      else hoverLoop findings pos (i + 1) rest

/-- `formatHoverContent` (hover.go): the markdown hover text. Byte-level
length and truncation of the matched content, and the `%.2f` float
rendering of the entropy, are abstracted to characters and the rational
`toString`. -/
def formatHoverContent (f : Finding) : String :=
  "# 🔐 Secret Detected: " ++ f.ruleID ++ "\n\n" ++
  "**Description**: " ++ f.description ++ "\n\n" ++
  "## Details\n\n" ++
  "- **Rule ID**: `" ++ f.ruleID ++ "`\n" ++
  "- **Location**: Line " ++ toString f.startLine ++ ", Column " ++
    toString f.startColumn ++ "-" ++ toString f.endColumn ++ "\n" ++
  (if 0 < f.entropy then
    "- **Entropy**: " ++ toString f.entropy ++ " (randomness score)\n"
   else "") ++
  "- **Fingerprint**: `" ++ f.fingerprint ++ "`\n\n" ++
  (if 0 < f.matchText.length then
    "**Matched Content**:\n```\n" ++
    (if 100 < f.matchText.length then
       String.mk (f.matchText.toList.take 100) ++ "..."
     else f.matchText) ++ "\n```\n\n"
   else "") ++
  "## 🛡️ Recommendations\n\n" ++
  "1. **Remove the secret** from the code\n" ++
  "2. **Use environment variables** or secret management tools\n" ++
  "3. **Rotate the credential** if already committed\n" ++
  "4. **Add to `.gitleaksignore`** if this is a false positive\n\n" ++
  "## 🔕 How to Ignore\n\n" ++
  "If this is a false positive, add a comment on the line above:\n" ++
  "```go\n// gitleaks:allow\n```\n\n" ++
  "Or add the fingerprint to `.gitleaksignore`:\n" ++
  "```\n" ++ f.fingerprint ++ "\n```\n"

/-- `textDocumentHover` (hover.go): unknown URI yields no result; with a
known document, the first finding whose diagnostic range contains the
position is formatted; no match yields no result. The second component is
the Go error, which the source returns as nil on every path. -/
def textDocumentHover (srv : ServerM) (uri : String) (pos : Position) :
    Option Hover × Option String :=
  match docGet srv.documents uri with
  | none => (none, none)
  | some doc =>
      match hoverLoop doc.findings pos 0 doc.diagnostics with
      | none => (none, none)
      | some f =>
          (some { kind := "markdown", value := formatHoverContent f }, none)

/-! ## Stated invariants -/

/-- The cache invariant of the design: no cached finding list contains a
finding whose ignore-list key is in the active ignore set. -/
def CacheIgnoreInv (ignoreSet : List String) (c : ResultCache) : Prop :=
  ∀ e ∈ c, ∀ f ∈ e.2, ignoreSet.contains (findingIgnoreKey f) = false

/-! ## Concrete fixtures for witnesses and counterexamples -/

/-- A raw finding at path p, rule r, line 10. -/
def gfP10 : ReportFinding :=
  { ruleID := "r", description := "d", matchText := "m", secret := "s"
    startLine := 10, endLine := 10, startColumn := 1, endColumn := 2
    line := "l", entropy := 0, file := "p" }

/-- The same raw finding moved to line 11. -/
def gfP11 : ReportFinding := { gfP10 with startLine := 11, endLine := 11 }

/-- A raw finding whose path contains a colon. -/
def gfColA : ReportFinding :=
  { gfP10 with file := "a:1", startLine := 2, ruleID := "b" }

/-- A raw finding with a different path, line and rule whose colon-joined
encoding coincides with that of `gfColA`. -/
def gfColB : ReportFinding :=
  { gfP10 with file := "a", startLine := 1, ruleID := "2:b" }

/-- A concrete scanner: one entry in the ignore set, a detector that
always reports `gfP10` and `gfP11`. -/
def exampleScanner : ScannerM :=
  { ignoreSet := ["p:r:10"], detect := fun _ _ => [gfP10, gfP11] }

/-- A concrete server with no open documents and an empty cache. -/
def exampleServer : ServerM :=
  { scanner := exampleScanner, documents := [], cache := [], severity := 2 }

/-- The file-system snapshot of the first walker example: `main.go`,
`.hidden`, `.git/config`, `node_modules/x.js`, `image.png`. -/
def exampleRoot1 : FSEntries := FSEntries.ofList
  [FSEntry.dir ".git" (FSEntries.ofList [FSEntry.file "config" 5]),
   FSEntry.file ".hidden" 10,
   FSEntry.file "image.png" 3,
   FSEntry.file "main.go" 100,
   FSEntry.dir "node_modules" (FSEntries.ofList [FSEntry.file "x.js" 7])]

/-- Modelled from the spec: the matching behaviour of the external
go-gitignore matcher compiled from a `.gitignore` containing the two
patterns `*.log` and `build/` - a `.log` suffix matches files anywhere,
and the `build` directory and everything under it match. -/
def exampleGitignore (p : String) : Bool :=
  ".log".toList.isSuffixOf p.toList || p == "build" ||
    ("build/".toList.isPrefixOf p.toList)

/-- The file-system snapshot of the gitignore example: `main.go`,
`debug.log`, `build/out.go`. -/
def exampleRoot2 : FSEntries := FSEntries.ofList
  [FSEntry.dir "build" (FSEntries.ofList [FSEntry.file "out.go" 10]),
   FSEntry.file "debug.log" 20,
   FSEntry.file "main.go" 100]

/-- A converted finding used by the hover fixtures. -/
def exampleFinding : Finding := convertGitleaksFinding gfP11

/-- The diagnostic published for `exampleFinding` at severity 2. -/
def exampleDiag : Diagnostic := FindingToDiagnostic 2 exampleFinding

/-- An open document holding that diagnostic and finding. -/
def exampleDoc : Document :=
  { uri := "file:///t.go", version := 1, content := []
    diagnostics := [exampleDiag], findings := [exampleFinding] }

/-- A server with the document open. -/
def exampleHoverServer : ServerM :=
  { exampleServer with documents := [("file:///t.go", exampleDoc)] }

/-- A cursor position inside the diagnostic range of `exampleDiag`. -/
def examplePos : Position := { line := 11, character := 0 }

/-! # Theorems -/

/-- Validation of the SHA-256 model against the standard test vector for
the string abc. -/
theorem sha256_abc :
    sha256 (strBytes "abc") =
      [186, 120, 22, 191, 143, 1, 207, 234, 65, 65, 64, 222, 93, 174, 34, 35,
       176, 3, 97, 163, 150, 23, 122, 156, 180, 16, 255, 97, 242, 0, 21, 173] := by
  decide

/-- Truncation to uint32 is the identity on values below 2 ^ 32. -/
theorem intToU32_eq_toNat (x : Int) (h0 : 0 ≤ x) (h1 : x < 4294967296) :
    intToU32 x = x.toNat := by
  unfold intToU32
  rw [Int.emod_eq_of_lt h0 h1]

/-- Clamping at zero before `toNat` is redundant. -/
theorem toNat_max_zero (x : Int) : (max 0 x).toNat = x.toNat := by
  rcases le_total 0 x with h | h
  · rw [max_eq_right h]
  · rw [max_eq_left h, Int.toNat_of_nonpos h]
    rfl

/-- C1 counterexample: the claim says an end column c on line 0 maps to
c unchanged for every input, but the Go uint32 conversion truncates
modulo 2 ^ 32 - the raw end column 4294967296 on line 0 normalizes to 0,
not to itself. -/
theorem adjustColumn_counterexample :
    adjustColumn 4294967296 0 true = 0 ∧
    adjustColumn 4294967296 0 true ≠ 4294967296 := by decide

/-- C1 (amended): for every raw column below 2 ^ 32 the mapping is
exactly as claimed - non-positive columns clamp to 0; on line 0 a start
column c maps to c - 1 and an end column to c; on any line above 0 a
start column maps to c - 2 and an end column to c - 1, every derived
negative clamping to 0 - and the function is total; raw columns of at
least 2 ^ 32 are truncated modulo 2 ^ 32 by the uint32 result type. -/
theorem adjustColumn_spec (col lineNum : Int) (hcol : col < 4294967296) :
    (col ≤ 0 →
      adjustColumn col lineNum false = 0 ∧ adjustColumn col lineNum true = 0)
  ∧ (0 < col →
      adjustColumn col 0 false = (col - 1).toNat ∧
      adjustColumn col 0 true = col.toNat)
  ∧ (0 < col → 0 < lineNum →
      adjustColumn col lineNum false = (col - 2).toNat ∧
      adjustColumn col lineNum true = (col - 1).toNat) := by
  refine ⟨fun h => ?_, fun h => ?_, fun h hl => ?_⟩
  · simp [adjustColumn, h]
  · have hne : ¬ col ≤ 0 := not_le.mpr h
    have hs : intToU32 (max 0 (col - 1)) = (col - 1).toNat := by
      rw [intToU32_eq_toNat _ (le_max_left _ _) (max_lt (by omega) (by omega)),
        toNat_max_zero]
    have he : intToU32 col = col.toNat := intToU32_eq_toNat _ (le_of_lt h) hcol
    simp [adjustColumn, hne, hs, he]
  · have hne : ¬ col ≤ 0 := not_le.mpr h
    have hlne : lineNum ≠ 0 := by omega
    have h1 : intToU32 (max 0 (col - 1)) = (col - 1).toNat := by
      rw [intToU32_eq_toNat _ (le_max_left _ _) (max_lt (by omega) (by omega)),
        toNat_max_zero]
    have h2 : intToU32 (max 0 (col - 2)) = (col - 2).toNat := by
      rw [intToU32_eq_toNat _ (le_max_left _ _) (max_lt (by omega) (by omega)),
        toNat_max_zero]
    simp [adjustColumn, hne, hlne, h1, h2]

/-- C1 witness: the amended mapping at the spec examples - start column 5
on line 1 normalizes to 3, end column 20 on line 1 normalizes to 19. -/
theorem adjustColumn_spec_witness :
    ((5 : Int) < 4294967296 ∧ adjustColumn 5 1 false = ((5 : Int) - 2).toNat) ∧
    adjustColumn 20 1 true = ((20 : Int) - 1).toNat := by
  refine ⟨⟨by decide, ?_⟩, ?_⟩
  · exact ((adjustColumn_spec 5 1 (by decide)).2.2 (by decide) (by decide)).1
  · exact ((adjustColumn_spec 20 1 (by decide)).2.2 (by decide) (by decide)).2

/-- C2 counterexample: the fingerprint does not distinguish every pair of
differing inputs - the colon-joined data string of (path a:1, line 2,
rule b) coincides with that of (path a, line 1, rule 2:b), so these two
findings, differing in all three inputs, share one fingerprint. -/
theorem calculateFingerprint_counterexample :
    gfColA.file ≠ gfColB.file ∧ gfColA.startLine ≠ gfColB.startLine ∧
    gfColA.ruleID ≠ gfColB.ruleID ∧
    calculateFingerprint gfColA = calculateFingerprint gfColB := by
  refine ⟨by decide, by decide, by decide, ?_⟩
  have h : fingerprintData gfColA = fingerprintData gfColB := by decide
  unfold calculateFingerprint
  rw [h]

/-- C2 (amended): the fingerprint is deterministic - it depends only on
the source path, start line and rule id, so identical inputs always give
identical fingerprints - and the spec example distinguishes: the same
path and rule at line 10 and line 11 give different fingerprints; but
inputs that differ need not give different fingerprints when their
colon-joined encodings coincide. -/
theorem calculateFingerprint_spec :
    (∀ gf gf2 : ReportFinding,
      gf.file = gf2.file → gf.startLine = gf2.startLine →
      gf.ruleID = gf2.ruleID →
      calculateFingerprint gf = calculateFingerprint gf2)
  ∧ calculateFingerprint gfP10 ≠ calculateFingerprint gfP11 := by
  constructor
  · intro gf gf2 h1 h2 h3
    unfold calculateFingerprint fingerprintData
    rw [h1, h2, h3]
  · decide

/-- C2 witness: determinism applied to two findings agreeing on path,
line and rule. -/
theorem calculateFingerprint_spec_witness :
    gfP10.file = gfP10.file ∧
    calculateFingerprint gfP10 = calculateFingerprint gfP10 :=
  ⟨rfl, calculateFingerprint_spec.1 gfP10 gfP10 rfl rfl rfl⟩

/-- The Go error of `ScanContent` is nil on every path. -/
theorem scanContent_snd (s : ScannerM) (fn : String) (c : List Nat) :
    (ScanContent s fn c).2 = none := by
  unfold ScanContent
  split <;> rfl

/-- Every finding `ScanContent` returns has an ignore key outside the
ignore set. -/
theorem scanContent_filters_ignored (s : ScannerM) (fn : String)
    (c : List Nat) :
    ∀ f ∈ (ScanContent s fn c).1,
      s.ignoreSet.contains (findingIgnoreKey f) = false := by
  intro f hf
  unfold ScanContent at hf
  split at hf
  · simp at hf
  · simp only [List.mem_map, List.mem_filter] at hf
    obtain ⟨gf, ⟨hmem, hpred⟩, rfl⟩ := hf
    have hkey : findingIgnoreKey (convertGitleaksFinding gf) =
        globalFingerprint gf := rfl
    rw [hkey]
    simpa using hpred

/-- Publishing diagnostics to the document store leaves the cache as it
was. -/
theorem publishTo_cache (srv : ServerM) (uri : String) (fs : List Finding) :
    (publishTo srv uri fs).cache = srv.cache := by
  unfold publishTo
  cases docGet srv.documents uri <;> rfl

/-- C3: ignore-filtering happens before caching - ScanContent never
returns a finding whose ignore key is in the active ignore set, and a
scan-and-publish step (cache hit or miss) preserves the invariant that no
cached list contains such a finding. -/
theorem scanAndPublish_cache_ignore (srv : ServerM) (uri : String)
    (content : List Nat)
    (hinv : CacheIgnoreInv srv.scanner.ignoreSet srv.cache) :
    (∀ f ∈ (ScanContent srv.scanner uri content).1,
      srv.scanner.ignoreSet.contains (findingIgnoreKey f) = false)
  ∧ CacheIgnoreInv srv.scanner.ignoreSet
      (scanAndPublish srv uri content).1.cache := by
  refine ⟨scanContent_filters_ignored _ _ _, ?_⟩
  unfold scanAndPublish
  rcases hget : cacheGet srv.cache content with _ | cached
  · rcases hsc : ScanContent srv.scanner uri content with ⟨fs, err⟩
    have herr : err = none := by
      have h2 := scanContent_snd srv.scanner uri content
      rw [hsc] at h2
      exact h2
    subst herr
    simp only [publishTo_cache]
    intro e he f hf
    rcases List.mem_cons.mp he with rfl | htail
    · have hfs : f ∈ (ScanContent srv.scanner uri content).1 := by
        rw [hsc]
        exact hf
      exact scanContent_filters_ignored _ _ _ f hfs
    · exact hinv e (List.mem_of_mem_filter htail) f hf
  · simp only [publishTo_cache]
    exact hinv

/-- C3 witness: the invariant is preserved from the empty cache of the
example server. -/
theorem scanAndPublish_cache_ignore_witness :
    CacheIgnoreInv exampleServer.scanner.ignoreSet exampleServer.cache ∧
    CacheIgnoreInv exampleServer.scanner.ignoreSet
      (scanAndPublish exampleServer "file:///t.go" [97]).1.cache := by
  have h0 : CacheIgnoreInv exampleServer.scanner.ignoreSet
      exampleServer.cache := by
    intro e he
    simp [exampleServer] at he
  exact ⟨h0,
    (scanAndPublish_cache_ignore exampleServer "file:///t.go" [97] h0).2⟩

/-- C5: content sniffed as binary short-circuits the file scan - no
findings, a nil error - and the goroutine body counts the file as
scanned, not skipped; the statement quantifies over every path, so the
extension-based pre-filter plays no role. -/
theorem binaryContent_counted_scanned (sniff : List Nat → Bool)
    (s : ScannerM) (path : String) (content : List Nat)
    (hbin : sniff (content.take 262) = true) :
    scanFile sniff s path (Except.ok content) = ([], none)
  ∧ scanTargetOutcome sniff s path (Except.ok content) =
      TargetOutcome.scannedTarget [] := by
  have h1 : scanFile sniff s path (Except.ok content) = ([], none) := by
    unfold scanFile isBinaryContent
    simp [hbin]
  refine ⟨h1, ?_⟩
  unfold scanTargetOutcome
  rw [h1]

/-- C5 witness: a PNG-magic sniffer fires on a PNG header stored under a
source-code file name. -/
theorem binaryContent_counted_scanned_witness :
    (fun bs => bs == [137, 80, 78, 71]) ([137, 80, 78, 71].take 262) = true ∧
    scanFile (fun bs => bs == [137, 80, 78, 71]) exampleScanner "main.go"
      (Except.ok [137, 80, 78, 71]) = ([], none) := by
  refine ⟨by decide, ?_⟩
  exact (binaryContent_counted_scanned (fun bs => bs == [137, 80, 78, 71])
    exampleScanner "main.go" [137, 80, 78, 71] (by decide)).1

/-- C6: put followed by get returns the stored list; a second put for the
same content overwrites, so a get returns the latter list and the cache
size does not grow. -/
theorem cache_put_get_overwrite (c : ResultCache) (content : List Nat)
    (fs fs2 : List Finding) :
    cacheGet (cachePut c content fs) content = some fs
  ∧ cacheGet (cachePut (cachePut c content fs) content fs2) content = some fs2
  ∧ cacheSize (cachePut (cachePut c content fs) content fs2) =
      cacheSize (cachePut c content fs) := by
  refine ⟨?_, ?_, ?_⟩ <;>
    simp [cacheGet, cachePut, cacheSize, List.find?_cons, List.filter_filter]

/-- C7: the reload trigger swaps in the new scanner reference and clears
the result cache - afterwards the size is zero and no previously stored
content is retrievable. -/
theorem reloadTrigger_spec (srv : ServerM) (ns : ScannerM) :
    (reloadTrigger srv ns).scanner = ns
  ∧ cacheSize (reloadTrigger srv ns).cache = 0
  ∧ ∀ content : List Nat, cacheGet (reloadTrigger srv ns).cache content = none := by
  refine ⟨rfl, rfl, ?_⟩
  intro content
  rfl

/-- C10: content longer than 1,000,000 bytes makes ScanContent return nil
findings and a nil error; the statement holds for every scanner state, so
the detector is never consulted. -/
theorem scanContent_oversized (s : ScannerM) (filename : String)
    (content : List Nat) (h : 1000000 < content.length) :
    ScanContent s filename content = ([], none) := by
  unfold ScanContent
  rw [if_pos]
  exact h

/-- C10 witness: a content of 1,000,001 zero bytes is not scanned. -/
theorem scanContent_oversized_witness :
    1000000 < (List.replicate 1000001 0).length ∧
    ScanContent exampleScanner "big.txt" (List.replicate 1000001 0) =
      ([], none) := by
  have h : 1000000 < (List.replicate 1000001 (0 : Nat)).length := by
    rw [List.length_replicate]
    omega
  exact ⟨h, scanContent_oversized exampleScanner "big.txt" _ h⟩

/-- When the cancellation signal never fires within range, every target
is dispatched and no cancellation is reported. -/
theorem dispatchFrom_all (done : Nat → Bool) :
    ∀ (files : List String) (i : Nat),
      (∀ j, j < files.length → done (i + j) = false) →
      dispatchFrom done i files = (files, false) := by
  intro files
  induction files with
  | nil => intro i _; rfl
  | cons f fs ih =>
      intro i h
      have h0 : done i = false := by simpa using h 0 (by simp)
      have hrest : ∀ j, j < fs.length → done (i + 1 + j) = false := by
        intro j hj
        rw [show i + 1 + j = i + (j + 1) by omega]
        exact h (j + 1) (by simpa using Nat.succ_lt_succ hj)
      unfold dispatchFrom
      rw [h0]
      simp [ih (i + 1) hrest]

/-- With the first cancellation observable at offset k, exactly the
first k targets are dispatched and the loop reports cancellation. -/
theorem dispatchFrom_stops (done : Nat → Bool) :
    ∀ (files : List String) (i k : Nat), k < files.length →
      done (i + k) = true → (∀ j, j < k → done (i + j) = false) →
      dispatchFrom done i files = (files.take k, true) := by
  intro files
  induction files with
  | nil => intro i k hk _ _; simp at hk
  | cons f fs ih =>
      intro i k hk hdone hbefore
      cases k with
      | zero =>
          have h0 : done i = true := by simpa using hdone
          unfold dispatchFrom
          rw [h0]
          simp
      | succ k2 =>
          have h0 : done i = false := by simpa using hbefore 0 (Nat.succ_pos _)
          have hd2 : done (i + 1 + k2) = true := by
            rw [show i + 1 + k2 = i + (k2 + 1) by omega]
            exact hdone
          have hb2 : ∀ j, j < k2 → done (i + 1 + j) = false := by
            intro j hj
            rw [show i + 1 + j = i + (j + 1) by omega]
            exact hbefore (j + 1) (by omega)
          have hk2 : k2 < fs.length := by simpa using hk
          unfold dispatchFrom
          rw [h0]
          simp [ih (i + 1) k2 hk2 hd2 hb2]

/-- C4: the cancellation signal is polled before each dispatch - when it
first becomes observable at index k, exactly the targets before k were
dispatched, none after, and the loop ends reporting the cancellation
error alongside the partial result; when it never fires, every target is
dispatched with no error. -/
theorem scanWorkspaceDispatch_spec (done : Nat → Bool) (files : List String) :
    (∀ k, k < files.length → done k = true →
      (∀ j, j < k → done j = false) →
      scanWorkspaceDispatch done files = (files.take k, true))
  ∧ ((∀ i, i < files.length → done i = false) →
      scanWorkspaceDispatch done files = (files, false)) := by
  constructor
  · intro k hk hdone hbefore
    exact dispatchFrom_stops done files 0 k hk (by simpa using hdone)
      (fun j hj => by simpa using hbefore j hj)
  · intro h
    exact dispatchFrom_all done files 0 (fun j hj => by simpa using h j hj)

/-- C4 witness: with cancellation first observable at index 2 of four
targets, the first two are dispatched and cancellation is reported; with
no cancellation both targets of a two-file scan run. -/
theorem scanWorkspaceDispatch_spec_witness :
    (2 < (["a", "b", "c", "d"] : List String).length ∧
      scanWorkspaceDispatch (fun i => decide (2 ≤ i)) ["a", "b", "c", "d"] =
        ((["a", "b", "c", "d"] : List String).take 2, true)) ∧
    scanWorkspaceDispatch (fun _ => false) ["a", "b"] = (["a", "b"], false) := by
  refine ⟨⟨by decide, ?_⟩, ?_⟩
  · exact (scanWorkspaceDispatch_spec (fun i => decide (2 ≤ i))
      ["a", "b", "c", "d"]).1 2 (by decide) (by decide)
      (fun j hj => by
        simp only [decide_eq_false_iff_not]
        omega)
  · exact (scanWorkspaceDispatch_spec (fun _ => false) ["a", "b"]).2
      (fun i _ => rfl)

/-- C8: the walker collects exactly the survivors of every exclusion
rule. The two spec scenarios evaluate as claimed, and each rule excludes:
hidden files and directories, deny-listed directory names, gitignore
matches on directories and files, binary extensions, and the 1,000,000
byte ceiling; a file surviving every rule is collected. -/
theorem collectFiles_spec :
    collectFiles none exampleRoot1 = ["main.go"]
  ∧ collectFiles (some exampleGitignore) exampleRoot2 = ["main.go"]
  ∧ (∀ g rel name size, startsWithDot name = true →
      walkEntry g rel (FSEntry.file name size) = [])
  ∧ (∀ g rel name es, startsWithDot name = true →
      walkEntry g rel (FSEntry.dir name es) = [])
  ∧ (∀ g rel name es, skipDirs.contains name = true →
      walkEntry g rel (FSEntry.dir name es) = [])
  ∧ (∀ g rel name es, gitignoreMatches g (relJoin rel name) = true →
      walkEntry g rel (FSEntry.dir name es) = [])
  ∧ (∀ g rel name size, isBinaryExtension name = true →
      walkEntry g rel (FSEntry.file name size) = [])
  ∧ (∀ g rel name size, gitignoreMatches g (relJoin rel name) = true →
      walkEntry g rel (FSEntry.file name size) = [])
  ∧ (∀ g rel name size, 1000000 < size →
      walkEntry g rel (FSEntry.file name size) = [])
  ∧ (∀ g rel name size, startsWithDot name = false →
      isBinaryExtension name = false →
      gitignoreMatches g (relJoin rel name) = false → size ≤ 1000000 →
      walkEntry g rel (FSEntry.file name size) = [relJoin rel name]) := by
  refine ⟨by decide, by decide, ?_, ?_, ?_, ?_, ?_, ?_, ?_, ?_⟩
  · intro g rel name size h
    simp [walkEntry, h]
  · intro g rel name es h
    simp [walkEntry, h]
  · intro g rel name es h
    have hmem : name ∈ skipDirs := by simpa using h
    by_cases hd : startsWithDot name <;> simp [walkEntry, hd, hmem]
  · intro g rel name es h
    by_cases hd : startsWithDot name <;>
      by_cases hs : name ∈ skipDirs <;> simp [walkEntry, hd, hs, h]
  · intro g rel name size h
    by_cases hd : startsWithDot name <;> simp [walkEntry, hd, h]
  · intro g rel name size h
    by_cases hd : startsWithDot name <;>
      by_cases hb : isBinaryExtension name <;> simp [walkEntry, hd, hb, h]
  · intro g rel name size h
    by_cases hd : startsWithDot name <;>
      by_cases hb : isBinaryExtension name <;>
        by_cases hg : gitignoreMatches g (relJoin rel name) <;>
          simp [walkEntry, hd, hb, hg, h]
  · intro g rel name size h1 h2 h3 h4
    simp [walkEntry, h1, h2, h3, Nat.not_lt.mpr h4]

/-- C8 witness: a hidden file is skipped by the walker. -/
theorem collectFiles_spec_witness :
    startsWithDot ".secret" = true ∧
    walkEntry none "" (FSEntry.file ".secret" 1) = [] :=
  ⟨by decide, collectFiles_spec.2.2.1 none "" ".secret" 1 (by decide)⟩

/-- When no diagnostic range contains the position the hover loop finds
nothing. -/
theorem hoverLoop_none (findings : List Finding) (pos : Position) :
    ∀ (diags : List Diagnostic) (start : Nat),
      (∀ d ∈ diags, positionInRange pos d.range = false) →
      hoverLoop findings pos start diags = none := by
  intro diags
  induction diags with
  | nil => intro start _; rfl
  | cons d rest ih =>
      intro start h
      have hd : positionInRange pos d.range = false := h d (by simp)
      unfold hoverLoop
      rw [hd]
      simp [ih (start + 1) (fun d2 hd2 => h d2 (by simp [hd2]))]

/-- The hover loop returns the finding indexed like the first diagnostic
whose range contains the position, when that index is inside the
findings list. -/
theorem hoverLoop_append (findings : List Finding) (pos : Position)
    (d : Diagnostic) (post : List Diagnostic) :
    ∀ (pre : List Diagnostic) (start : Nat),
      (∀ d2 ∈ pre, positionInRange pos d2.range = false) →
      positionInRange pos d.range = true →
      start + pre.length < findings.length →
      hoverLoop findings pos start (pre ++ d :: post) =
        some (findings.getD (start + pre.length) defaultFinding) := by
  intro pre
  induction pre with
  | nil =>
      intro start _ hd hlen
      rw [List.nil_append]
      unfold hoverLoop
      rw [hd]
      have hlen2 : start < findings.length := by simpa using hlen
      simp [hlen2]
  | cons p pre ih =>
      intro start hpre hd hlen
      have hp : positionInRange pos p.range = false := hpre p (by simp)
      rw [List.cons_append]
      unfold hoverLoop
      rw [hp]
      have hlen2 : start + 1 + pre.length < findings.length := by
        simp at hlen
        omega
      have := ih (start + 1)
        (fun d2 hd2 => hpre d2 (by simp [hd2])) hd hlen2
      rw [show start + 1 + pre.length = start + (p :: pre).length by
        simp
        omega] at this
      simp [this]

/-- C9: a hover query on an unknown URI yields no result and no error;
with a known document and no diagnostic range containing the position it
yields no result and no error; when a single diagnostic range contains
the position (and its index is inside the findings list) the finding at
that index is returned formatted as markdown text; and the handler never
returns an error. -/
theorem textDocumentHover_spec (srv : ServerM) (uri : String)
    (pos : Position) :
    (docGet srv.documents uri = none →
      textDocumentHover srv uri pos = (none, none))
  ∧ (∀ doc, docGet srv.documents uri = some doc →
      (∀ d ∈ doc.diagnostics, positionInRange pos d.range = false) →
      textDocumentHover srv uri pos = (none, none))
  ∧ (∀ doc pre d post, docGet srv.documents uri = some doc →
      doc.diagnostics = pre ++ d :: post →
      (∀ d2 ∈ pre, positionInRange pos d2.range = false) →
      positionInRange pos d.range = true →
      (∀ d2 ∈ post, positionInRange pos d2.range = false) →
      pre.length < doc.findings.length →
      textDocumentHover srv uri pos =
        (some { kind := "markdown"
                value := formatHoverContent
                  (doc.findings.getD pre.length defaultFinding) }, none))
  ∧ (textDocumentHover srv uri pos).2 = none := by
  refine ⟨?_, ?_, ?_, ?_⟩
  · intro h
    unfold textDocumentHover
    rw [h]
  · intro doc hdoc hnone
    have hl := hoverLoop_none doc.findings pos doc.diagnostics 0 hnone
    simp [textDocumentHover, hdoc, hl]
  · intro doc pre d post hdoc hdiags hpre hd _ hlen
    have hl := hoverLoop_append doc.findings pos d post pre 0 hpre hd
      (by simpa using hlen)
    rw [← hdiags] at hl
    simp [textDocumentHover, hdoc, hl]
  · rcases h : docGet srv.documents uri with _ | doc
    · simp [textDocumentHover, h]
    · rcases h2 : hoverLoop doc.findings pos 0 doc.diagnostics with _ | f <;>
        simp [textDocumentHover, h, h2]

/-- C9 witness: hovering inside the single diagnostic of the example
document returns its finding formatted. -/
theorem textDocumentHover_spec_witness :
    (docGet exampleHoverServer.documents "file:///t.go" = some exampleDoc ∧
     exampleDoc.diagnostics = [] ++ exampleDiag :: [] ∧
     positionInRange examplePos exampleDiag.range = true ∧
     List.length ([] : List Diagnostic) < exampleDoc.findings.length) ∧
    textDocumentHover exampleHoverServer "file:///t.go" examplePos =
      (some { kind := "markdown"
              value := formatHoverContent
                (exampleDoc.findings.getD
                  (List.length ([] : List Diagnostic)) defaultFinding) },
       none) := by
  refine ⟨⟨by decide, by decide, by decide, by decide⟩, ?_⟩
  exact (textDocumentHover_spec exampleHoverServer "file:///t.go"
      examplePos).2.2.1 exampleDoc [] exampleDiag [] (by decide) (by decide)
    (fun d2 hd2 => absurd hd2 (List.not_mem_nil d2)) (by decide)
    (fun d2 hd2 => absurd hd2 (List.not_mem_nil d2)) (by decide)

end GitleaksLS
